import Mathlib

/-!
Verification of the `numerals` repository: Roman numeral encoding/decoding
(`src/roman.rs`) and Japanese numeral encoding (`src/japanese.rs`).

The Rust functions are shallowly embedded: `u64` values become `Nat`
(all arithmetic performed by the code on the inputs relevant here stays far
below `2 ^ 64`, and the one place where wrapping is in question — the
unsigned subtraction in `to_arabic` — is the subject of a dedicated safety
theorem), `Result`/panics become `Except`/`Option`, and the lazy-static
lookup tables become association lists in the order they are written in the
source.
-/

namespace Numerals

/-- Error taxonomy of the Roman converter (spec section 7): the Rust code
returns boxed string errors; the four distinct error sites are modelled as a
closed enumeration. -/
inductive RomanError where
  | emptyInput
  | invalidCharacter
  | invalidSequence
  | outOfRange
deriving DecidableEq

instance {ε α : Type} [DecidableEq ε] [DecidableEq α] : DecidableEq (Except ε α) := fun a b =>
  match a, b with
  | .ok x, .ok y =>
    if h : x = y then .isTrue (congrArg Except.ok h)
    else .isFalse (fun hh => h (Except.ok.inj hh))
  | .error x, .error y =>
    if h : x = y then .isTrue (congrArg Except.error h)
    else .isFalse (fun hh => h (Except.error.inj hh))
  | .ok _, .error _ => .isFalse (fun hh => Except.noConfusion hh)
  | .error _, .ok _ => .isFalse (fun hh => Except.noConfusion hh)

/-- Static map from Roman numeral glyph to magnitude, `ROMAN_TO_ARABIC` in
`src/roman.rs` (ASCII letters, Unicode numeral glyphs U+2160..U+216F, and the
apostrophus symbols U+2180..U+2188), in source order. -/
def ROMAN_TO_ARABIC : List (Char × Nat) :=
  [('I', 1), ('Ⅰ', 1), ('Ⅱ', 2), ('Ⅲ', 3), ('Ⅳ', 4),
   ('V', 5), ('Ⅴ', 5), ('Ⅵ', 6), ('ↅ', 6), ('Ⅶ', 7), ('Ⅷ', 8), ('Ⅸ', 9),
   ('X', 10), ('Ⅹ', 10), ('Ⅺ', 11),
   ('L', 50), ('Ⅼ', 50), ('ↆ', 50),
   ('C', 100), ('Ⅽ', 100),
   ('D', 500), ('Ⅾ', 500),
   ('M', 1000), ('Ⅿ', 1000), ('ↀ', 1000),
   ('ↁ', 5000), ('ↂ', 10000), ('ↇ', 50000), ('ↈ', 100000)]

/-- Model of `char::to_uppercase` as used by `String::to_uppercase` in
`to_arabic`, restricted to the character classes that can reach the glyph
tables: ASCII lowercase letters a..z map to A..Z and the Unicode small Roman
numeral glyphs U+2170..U+217F map to U+2160..U+216F; every other character is
left unchanged (no other Unicode case mapping lands in the numeral
alphabet, so this is behaviour-preserving for the decoder). -/
def rustToUpper (c : Char) : Char :=
  if 97 ≤ c.toNat ∧ c.toNat ≤ 122 then Char.ofNat (c.toNat - 32)
  else if 8560 ≤ c.toNat ∧ c.toNat ≤ 8575 then Char.ofNat (c.toNat - 16)
  else c

/-- Model of `String::to_uppercase` (characterwise; none of the relevant
characters expand to several characters when uppercased). -/
def rust_to_uppercase (s : String) : String := ⟨s.data.map rustToUpper⟩

/-- The right-to-left scanning loop of `to_arabic` (`src/roman.rs` lines
143-167).  The list is the glyph magnitudes in processing order (i.e. the
string reversed); `b1, b2, b3` are the three most recently processed
magnitudes (the sliding 4-slot buffer minus the slot that is popped before
use), initially 0; `value` is the running total.  After the buffer push the
Rust code reads `buffer[1] = b2` and `buffer[2] = b3`.  Nat subtraction is
used for `value -= current`; the safety theorem for the implicit claim shows
the subtrahend never exceeds the running total. -/
def scanLoop : List Nat → Nat → Nat → Nat → Nat → Except RomanError Nat
  | [], _, _, _, value => .ok value
  | current :: rest, b1, b2, b3, value =>
    if current < b2 then .error .invalidSequence
    else if b1 = current ∧ b2 = current ∧ b3 = current then .error .invalidSequence
    else if current = b3 ∧ (current = 50 ∨ current = 500) then .error .invalidSequence
    else if current < b3 then
      if b3 - current = current then .error .invalidSequence
      else scanLoop rest b2 b3 current (value - current)
    else scanLoop rest b2 b3 current (value + current)

/-- Ghost-instrumented copy of `scanLoop` that records, instead of the value,
whether every executed subtractive branch satisfied `current ≤ value`
(i.e. whether the unsigned subtraction `value -= current` was free of
wrap-around). -/
def scanLoopSafe : List Nat → Nat → Nat → Nat → Nat → Bool
  | [], _, _, _, _ => true
  | current :: rest, b1, b2, b3, value =>
    if current < b2 then true
    else if b1 = current ∧ b2 = current ∧ b3 = current then true
    else if current = b3 ∧ (current = 50 ∨ current = 500) then true
    else if current < b3 then
      if b3 - current = current then true
      else decide (current ≤ value) && scanLoopSafe rest b2 b3 current (value - current)
    else scanLoopSafe rest b2 b3 current (value + current)

/-- Magnitudes of the characters of a string, in order: `none` exactly when
some character is missing from the glyph table (the subset-of-NUMERALS check
of the Rust code). -/
def lookupVals (l : List Char) : Option (List Nat) :=
  l.mapM fun c => ROMAN_TO_ARABIC.lookup c

/-- Body of `to_arabic` after the initial uppercase normalization
(`src/roman.rs` lines 118-168): reject the empty string, return 4 for the two
literal watchmaker strings, reject strings containing characters outside the
glyph table, then run the right-to-left validation/accumulation scan. -/
def to_arabic_checked (roman : String) : Except RomanError Nat :=
  if roman = "" then .error .emptyInput
  else if roman = "IIII" ∨ roman = "ⅠⅠⅠⅠ" then .ok 4
  else
    match lookupVals roman.data with
    | none => .error .invalidCharacter
    | some vals => scanLoop vals.reverse 0 0 0 0

/-- Model of `to_arabic` (`src/roman.rs` lines 116-168): the first statement
`let roman = roman.to_uppercase();` followed by the checked body. -/
def to_arabic (roman : String) : Except RomanError Nat :=
  to_arabic_checked (rust_to_uppercase roman)

/-- Ordered encoding table `ARABIC_TO_ASCII` of `src/roman.rs`, strictly
descending by magnitude. -/
def ARABIC_TO_ASCII : List (Nat × String) :=
  [(1000, "M"), (900, "CM"), (500, "D"), (400, "CD"), (100, "C"), (90, "XC"),
   (50, "L"), (40, "XL"), (10, "X"), (9, "IX"), (5, "V"), (4, "IV"), (1, "I")]

/-- Ordered encoding table `ARABIC_TO_UNICODE` of `src/roman.rs`.  Note that
the entries for 5 and 4 use the ASCII letter V (U+0056), not the Unicode
glyph Ⅴ (U+2164), exactly as in the source. -/
def ARABIC_TO_UNICODE : List (Nat × String) :=
  [(1000, "Ⅿ"), (900, "ⅭⅯ"), (500, "Ⅾ"), (400, "ⅭⅮ"), (100, "Ⅽ"), (90, "ⅩⅭ"),
   (50, "Ⅼ"), (40, "ⅩⅬ"), (10, "Ⅹ"), (9, "ⅠⅩ"), (5, "V"), (4, "ⅠV"), (1, "Ⅰ")]

/-- One entry of the greedy encoding loop of `to_roman`:
`while input % arabic < input { ret += roman; input -= arabic }`.
The while loop is embedded with a fuel argument for structural recursion;
each iteration decreases `input` by `arabic ≥ 1` (the loop guard forces
`1 ≤ arabic ≤ input`), so `input` iterations always suffice and the fuel
never runs out before the guard turns false. -/
def greedyFuel (arabic : Nat) (roman : String) : Nat → Nat → String → Nat × String
  | 0, input, ret => (input, ret)
  | fuel + 1, input, ret =>
    if input % arabic < input then greedyFuel arabic roman fuel (input - arabic) (ret ++ roman)
    else (input, ret)

/-- The while loop of `to_roman` for one table entry, with adequate fuel. -/
def greedyOne (arabic : Nat) (roman : String) (input : Nat) (ret : String) : Nat × String :=
  greedyFuel arabic roman input input ret

/-- The body of the `for (arabic, roman) in list.iter()` loop of `to_roman`,
acting on the loop state (remaining value, output string). -/
def greedyStep (st : Nat × String) (p : Nat × String) : Nat × String :=
  greedyOne p.1 p.2 st.1 st.2

/-- Model of `to_roman` (`src/roman.rs` lines 92-114): range check, then a
greedy scan over the chosen encoding table carrying the pair
(remaining value, output string). -/
def to_roman (input : Nat) (use_unicode : Bool) : Except RomanError String :=
  if input < 1 ∨ input > 3999 then .error .outOfRange
  else
    let list := if use_unicode then ARABIC_TO_UNICODE else ARABIC_TO_ASCII
    .ok (list.foldl greedyStep (input, "")).2

/-- Static map `ARABIC_TO_KANJI` of `src/japanese.rs`, in source order.  Its
keys are the digits 0..9 and the powers of ten from 10 up to 10 ^ 16 — and
nothing above 10 ^ 16. -/
def ARABIC_TO_KANJI : List (Nat × String) :=
  [(10000000000000000, "京"), (1000000000000000, "千兆"), (100000000000000, "百兆"),
   (10000000000000, "十兆"), (1000000000000, "兆"), (100000000000, "千億"),
   (10000000000, "百億"), (1000000000, "十億"), (100000000, "億"),
   (10000000, "千万"), (1000000, "百万"), (100000, "十万"), (10000, "万"),
   (1000, "千"), (100, "百"), (10, "十"),
   (9, "九"), (8, "八"), (7, "七"), (6, "六"), (5, "五"), (4, "四"), (3, "三"),
   (2, "二"), (1, "一"), (0, "零")]

/-- Decimal digits of `n`, least significant first: the model of
`input.to_string().chars().map(to_digit).rev()` in `to_japanese`.  Embedded
with a fuel argument (`n` itself — more than the number of digits) for
structural recursion. -/
def decDigitsRevFuel : Nat → Nat → List Nat
  | 0, _ => []
  | fuel + 1, n => if n = 0 then [] else n % 10 :: decDigitsRevFuel fuel (n / 10)

/-- Decimal digits of `n`, least significant first. -/
def decDigitsRev (n : Nat) : List Nat := decDigitsRevFuel n n

/-- The digit loop of `to_japanese` (`src/japanese.rs` lines 83-97).  The two
`ARABIC_TO_KANJI[..]` index expressions panic in Rust when the key is
missing; this is modelled by returning `none`. -/
def toJapaneseLoop : List Nat → Nat → String → Option String
  | [], _, ret => some ret
  | digit :: rest, power, ret =>
    match ARABIC_TO_KANJI.lookup power, ARABIC_TO_KANJI.lookup digit with
    | some pwr_symbol, some cur =>
      let current := if power ≠ 1 then (if digit = 1 then pwr_symbol else cur ++ pwr_symbol)
                     else cur
      let ret := if digit ≠ 0 then current ++ ret else ret
      toJapaneseLoop rest (power * 10) ret
    | _, _ => none

/-- Model of `to_japanese` (`src/japanese.rs` lines 66-99).  `some s` models
a normal return of `s`; `none` models a panic on a missing table key.
(The `power * 10` update is kept in plain Nat: for inputs whose digit count
makes it exceed `2 ^ 64` the table lookup has already failed earlier in the
scan, so `u64` wrap-around never influences any defined result.) -/
def to_japanese (input : Nat) : Option String :=
  if input = 0 then some "零"
  else toJapaneseLoop (decDigitsRev input) 1 ""

/- Verification-layer decomposition of the encoder output into the four
decimal-digit segments.  These definitions exist only to state and prove the
round-trip claim; the encoder itself is the table fold above. -/

/-- ASCII glyphs contributed by the thousands digit. -/
def thousA : Nat → String
  | 0 => "" | 1 => "M" | 2 => "MM" | _ => "MMM"

/-- ASCII glyphs contributed by the hundreds digit. -/
def hundA : Nat → String
  | 0 => "" | 1 => "C" | 2 => "CC" | 3 => "CCC" | 4 => "CD"
  | 5 => "D" | 6 => "DC" | 7 => "DCC" | 8 => "DCCC" | _ => "CM"

/-- ASCII glyphs contributed by the tens digit. -/
def tenA : Nat → String
  | 0 => "" | 1 => "X" | 2 => "XX" | 3 => "XXX" | 4 => "XL"
  | 5 => "L" | 6 => "LX" | 7 => "LXX" | 8 => "LXXX" | _ => "XC"

/-- ASCII glyphs contributed by the units digit. -/
def unitA : Nat → String
  | 0 => "" | 1 => "I" | 2 => "II" | 3 => "III" | 4 => "IV"
  | 5 => "V" | 6 => "VI" | 7 => "VII" | 8 => "VIII" | _ => "IX"

/-- Unicode-style glyphs contributed by the thousands digit. -/
def thousU : Nat → String
  | 0 => "" | 1 => "Ⅿ" | 2 => "ⅯⅯ" | _ => "ⅯⅯⅯ"

/-- Unicode-style glyphs contributed by the hundreds digit. -/
def hundU : Nat → String
  | 0 => "" | 1 => "Ⅽ" | 2 => "ⅭⅭ" | 3 => "ⅭⅭⅭ" | 4 => "ⅭⅮ"
  | 5 => "Ⅾ" | 6 => "ⅮⅭ" | 7 => "ⅮⅭⅭ" | 8 => "ⅮⅭⅭⅭ" | _ => "ⅭⅯ"

/-- Unicode-style glyphs contributed by the tens digit. -/
def tenU : Nat → String
  | 0 => "" | 1 => "Ⅹ" | 2 => "ⅩⅩ" | 3 => "ⅩⅩⅩ" | 4 => "ⅩⅬ"
  | 5 => "Ⅼ" | 6 => "ⅬⅩ" | 7 => "ⅬⅩⅩ" | 8 => "ⅬⅩⅩⅩ" | _ => "ⅩⅭ"

/-- Unicode-style glyphs contributed by the units digit (note the ASCII V,
as in the source table). -/
def unitU : Nat → String
  | 0 => "" | 1 => "Ⅰ" | 2 => "ⅠⅠ" | 3 => "ⅠⅠⅠ" | 4 => "ⅠV"
  | 5 => "V" | 6 => "VⅠ" | 7 => "VⅠⅠ" | 8 => "VⅠⅠⅠ" | _ => "ⅠⅩ"

/-- The full ASCII encoding of n, digit segment by digit segment. -/
def romanOfA (n : Nat) : String :=
  thousA (n / 1000) ++ (hundA (n % 1000 / 100) ++ (tenA (n % 100 / 10) ++ unitA (n % 10)))

/-- The full Unicode-style encoding of n, digit segment by digit segment. -/
def romanOfU (n : Nat) : String :=
  thousU (n / 1000) ++ (hundU (n % 1000 / 100) ++ (tenU (n % 100 / 10) ++ unitU (n % 10)))

/-- Decoder-table magnitudes of the thousands-digit glyphs (identical for
both styles). -/
def thousM : Nat → List Nat
  | 0 => [] | 1 => [1000] | 2 => [1000, 1000] | _ => [1000, 1000, 1000]

/-- Decoder-table magnitudes of the hundreds-digit glyphs. -/
def hundM : Nat → List Nat
  | 0 => [] | 1 => [100] | 2 => [100, 100] | 3 => [100, 100, 100] | 4 => [100, 500]
  | 5 => [500] | 6 => [500, 100] | 7 => [500, 100, 100] | 8 => [500, 100, 100, 100]
  | _ => [100, 1000]

/-- Decoder-table magnitudes of the tens-digit glyphs. -/
def tenM : Nat → List Nat
  | 0 => [] | 1 => [10] | 2 => [10, 10] | 3 => [10, 10, 10] | 4 => [10, 50]
  | 5 => [50] | 6 => [50, 10] | 7 => [50, 10, 10] | 8 => [50, 10, 10, 10]
  | _ => [10, 100]

/-- Decoder-table magnitudes of the units-digit glyphs. -/
def unitM : Nat → List Nat
  | 0 => [] | 1 => [1] | 2 => [1, 1] | 3 => [1, 1, 1] | 4 => [1, 5]
  | 5 => [5] | 6 => [5, 1] | 7 => [5, 1, 1] | 8 => [5, 1, 1, 1]
  | _ => [1, 10]

/-- Decoder-table magnitudes of the full encoding of n (style-independent:
the two glyph tables share all magnitudes). -/
def magsOf (n : Nat) : List Nat :=
  thousM (n / 1000) ++ (hundM (n % 1000 / 100) ++ (tenM (n % 100 / 10) ++ unitM (n % 10)))

/-- The hundreds segment of the ASCII encoding table. -/
def hsegA : List (Nat × String) := [(900, "CM"), (500, "D"), (400, "CD"), (100, "C")]

/-- The tens segment of the ASCII encoding table. -/
def tsegA : List (Nat × String) := [(90, "XC"), (50, "L"), (40, "XL"), (10, "X")]

/-- The units segment of the ASCII encoding table. -/
def usegA : List (Nat × String) := [(9, "IX"), (5, "V"), (4, "IV"), (1, "I")]

/-- The hundreds segment of the Unicode encoding table. -/
def hsegU : List (Nat × String) := [(900, "ⅭⅯ"), (500, "Ⅾ"), (400, "ⅭⅮ"), (100, "Ⅽ")]

/-- The tens segment of the Unicode encoding table. -/
def tsegU : List (Nat × String) := [(90, "ⅩⅭ"), (50, "Ⅼ"), (40, "ⅩⅬ"), (10, "Ⅹ")]

/-- The units segment of the Unicode encoding table. -/
def usegU : List (Nat × String) := [(9, "ⅠⅩ"), (5, "V"), (4, "ⅠV"), (1, "Ⅰ")]

/-- Everything the round-trip proof needs at a single value n, checkable by
evaluation: the decode scan applied to the magnitudes of the encoding of n
recovers n, and neither encoding collides with the strings treated specially
by the decoder. -/
abbrev SCOK (n : Nat) : Prop :=
  scanLoop (magsOf n).reverse 0 0 0 0 = Except.ok n ∧
  romanOfA n ≠ "" ∧ ¬(romanOfA n = "IIII" ∨ romanOfA n = "ⅠⅠⅠⅠ") ∧
  romanOfU n ≠ "" ∧ ¬(romanOfU n = "IIII" ∨ romanOfU n = "ⅠⅠⅠⅠ")

/- Helper lemmas -/

/-- Uppercasing fixes the ASCII uppercase letters A..Z. -/
theorem upper_fix_ascii : ∀ m, m < 26 → rustToUpper (Char.ofNat (65 + m)) = Char.ofNat (65 + m) := by
  decide

/-- Uppercasing fixes the Unicode capital Roman numeral glyphs
U+2160..U+216F. -/
theorem upper_fix_numeral : ∀ m, m < 16 → rustToUpper (Char.ofNat (8544 + m)) = Char.ofNat (8544 + m) := by
  decide

/-- The character uppercase map is idempotent: its image consists of fixed
points. -/
theorem rustToUpper_idem (c : Char) : rustToUpper (rustToUpper c) = rustToUpper c := by
  by_cases h1 : 97 ≤ c.toNat ∧ c.toNat ≤ 122
  · have hc : rustToUpper c = Char.ofNat (c.toNat - 32) := by
      unfold rustToUpper; rw [if_pos h1]
    have e : c.toNat - 32 = 65 + (c.toNat - 97) := by omega
    rw [hc, e]
    exact upper_fix_ascii _ (by omega)
  · by_cases h2 : 8560 ≤ c.toNat ∧ c.toNat ≤ 8575
    · have hc : rustToUpper c = Char.ofNat (c.toNat - 16) := by
        unfold rustToUpper; rw [if_neg h1, if_pos h2]
      have e : c.toNat - 16 = 8544 + (c.toNat - 8560) := by omega
      rw [hc, e]
      exact upper_fix_numeral _ (by omega)
    · have hc : rustToUpper c = c := by
        unfold rustToUpper; rw [if_neg h1, if_neg h2]
      rw [hc]
      exact hc

/-- Characterwise idempotence lifted to lists of characters. -/
theorem map_upper_idem (l : List Char) :
    (l.map rustToUpper).map rustToUpper = l.map rustToUpper := by
  induction l with
  | nil => rfl
  | cons c t ih =>
    simp only [List.map_cons]
    rw [rustToUpper_idem, ih]

/-- String uppercasing is idempotent. -/
theorem upper_upper (s : String) :
    rust_to_uppercase (rust_to_uppercase s) = rust_to_uppercase s :=
  congrArg String.mk (map_upper_idem s.data)

/-- Invariant of the decode scan: either the previous step was subtractive
(`b3 < b2`) or the running total dominates the previous magnitude
(`b3 ≤ value`).  Under it, every subtraction performed by the scan satisfies
`current ≤ value`. -/
theorem scanLoopSafe_true :
    ∀ (l : List Nat) (b1 b2 b3 value : Nat), b3 < b2 ∨ b3 ≤ value →
    scanLoopSafe l b1 b2 b3 value = true := by
  intro l
  induction l with
  | nil => intro b1 b2 b3 value _; rfl
  | cons current rest ih =>
    intro b1 b2 b3 value hinv
    simp only [scanLoopSafe]
    by_cases h1 : current < b2
    · rw [if_pos h1]
    · rw [if_neg h1]
      by_cases h2 : b1 = current ∧ b2 = current ∧ b3 = current
      · rw [if_pos h2]
      · rw [if_neg h2]
        by_cases h3 : current = b3 ∧ (current = 50 ∨ current = 500)
        · rw [if_pos h3]
        · rw [if_neg h3]
          by_cases h4 : current < b3
          · rw [if_pos h4]
            by_cases h5 : b3 - current = current
            · rw [if_pos h5]
            · rw [if_neg h5]
              have hval : current ≤ value := by
                rcases hinv with hlt | hle
                · omega
                · omega
              rw [ih b2 b3 current (value - current) (Or.inl h4)]
              simp [hval]
          · rw [if_neg h4]
            exact ih b2 b3 current (value + current) (Or.inr (by omega))

/-- Appending to the accumulator of the greedy while loop only prefixes the
eventual output: the loop run from accumulator `s ++ t` equals the run from
`t` with `s` prefixed to the string component, numeric component unchanged. -/
theorem greedyFuel_prefix (a : Nat) (g : String) :
    ∀ (fuel input : Nat) (s t : String),
    greedyFuel a g fuel input (s ++ t)
      = ((greedyFuel a g fuel input t).1, s ++ (greedyFuel a g fuel input t).2) := by
  intro fuel
  induction fuel with
  | zero => intro input s t; rfl
  | succ fuel ih =>
    intro input s t
    simp only [greedyFuel]
    by_cases h : input % a < input
    · rw [if_pos h, if_pos h, String.append_assoc]
      exact ih (input - a) s (t ++ g)
    · rw [if_neg h, if_neg h]

/-- The prefix property lifted to the fold over an encoding table. -/
theorem foldl_greedy_prefix :
    ∀ (tab : List (Nat × String)) (r : Nat) (s t : String),
    List.foldl greedyStep (r, s ++ t) tab
      = ((List.foldl greedyStep (r, t) tab).1, s ++ (List.foldl greedyStep (r, t) tab).2) := by
  intro tab
  induction tab with
  | nil => intro r s t; rfl
  | cons p tab ih =>
    intro r s t
    simp only [List.foldl_cons]
    have hstep : greedyStep (r, s ++ t) p
        = ((greedyStep (r, t) p).1, s ++ (greedyStep (r, t) p).2) :=
      greedyFuel_prefix p.1 p.2 r r s t
    rw [hstep]
    rw [ih (greedyStep (r, t) p).1 s (greedyStep (r, t) p).2]

/-- The prefix property against the empty accumulator. -/
theorem foldl_greedy_shift (tab : List (Nat × String)) (r : Nat) (s : String) :
    List.foldl greedyStep (r, s) tab
      = ((List.foldl greedyStep (r, "") tab).1, s ++ (List.foldl greedyStep (r, "") tab).2) := by
  have h := foldl_greedy_prefix tab r s ""
  rwa [String.append_empty] at h

set_option maxRecDepth 100000 in
/-- Greedy evaluation of the thousands table entry on every value below
4000, written as 1000 q + r. -/
theorem greedy_thousA : ∀ q, q < 4 → ∀ r, r < 1000 →
    greedyOne 1000 "M" (1000 * q + r) "" = (r, thousA q) := by decide

set_option maxRecDepth 100000 in
/-- Unicode version of the thousands-entry evaluation. -/
theorem greedy_thousU : ∀ q, q < 4 → ∀ r, r < 1000 →
    greedyOne 1000 "Ⅿ" (1000 * q + r) "" = (r, thousU q) := by decide

set_option maxRecDepth 100000 in
/-- Greedy evaluation of the hundreds segment on every remainder below 1000. -/
theorem greedy_hundA : ∀ r, r < 1000 →
    List.foldl greedyStep (r, "") hsegA = (r % 100, hundA (r / 100)) := by decide

set_option maxRecDepth 100000 in
/-- Unicode version of the hundreds-segment evaluation. -/
theorem greedy_hundU : ∀ r, r < 1000 →
    List.foldl greedyStep (r, "") hsegU = (r % 100, hundU (r / 100)) := by decide

/-- Greedy evaluation of the tens segment on every remainder below 100. -/
theorem greedy_tenA : ∀ r, r < 100 →
    List.foldl greedyStep (r, "") tsegA = (r % 10, tenA (r / 10)) := by decide

/-- Unicode version of the tens-segment evaluation. -/
theorem greedy_tenU : ∀ r, r < 100 →
    List.foldl greedyStep (r, "") tsegU = (r % 10, tenU (r / 10)) := by decide

/-- Greedy evaluation of the units segment on every remainder below 10. -/
theorem greedy_unitA : ∀ r, r < 10 →
    List.foldl greedyStep (r, "") usegA = (0, unitA r) := by decide

/-- Unicode version of the units-segment evaluation. -/
theorem greedy_unitU : ∀ r, r < 10 →
    List.foldl greedyStep (r, "") usegU = (0, unitU r) := by decide

/-- The ASCII encoding table splits into its four digit segments. -/
theorem tabA_decomp : ARABIC_TO_ASCII = [(1000, "M")] ++ (hsegA ++ (tsegA ++ usegA)) := rfl

/-- The Unicode encoding table splits into its four digit segments. -/
theorem tabU_decomp : ARABIC_TO_UNICODE = [(1000, "Ⅿ")] ++ (hsegU ++ (tsegU ++ usegU)) := rfl

/-- Characterization of the ASCII encoder on its accepted range: the greedy
fold produces exactly the four digit segments. -/
theorem to_roman_eqA (n : Nat) (h1 : 1 ≤ n) (h2 : n ≤ 3999) :
    to_roman n false = .ok (romanOfA n) := by
  have hdef : to_roman n false
      = if n < 1 ∨ n > 3999 then .error .outOfRange
        else .ok ((ARABIC_TO_ASCII.foldl greedyStep (n, "")).2) := rfl
  rw [hdef, if_neg (by omega : ¬(n < 1 ∨ n > 3999))]
  have e0 : List.foldl greedyStep (n, "") [(1000, "M")] = (n % 1000, thousA (n / 1000)) := by
    have h := greedy_thousA (n / 1000) (by omega) (n % 1000) (Nat.mod_lt n (by omega))
    rw [Nat.div_add_mod n 1000] at h
    exact h
  have e1 : List.foldl greedyStep (n % 1000, thousA (n / 1000)) hsegA
      = (n % 100, thousA (n / 1000) ++ hundA (n % 1000 / 100)) := by
    rw [foldl_greedy_shift, greedy_hundA (n % 1000) (Nat.mod_lt n (by omega)),
        Nat.mod_mod_of_dvd n (by norm_num : (100 : Nat) ∣ 1000)]
  have e2 : List.foldl greedyStep (n % 100, thousA (n / 1000) ++ hundA (n % 1000 / 100)) tsegA
      = (n % 10, (thousA (n / 1000) ++ hundA (n % 1000 / 100)) ++ tenA (n % 100 / 10)) := by
    rw [foldl_greedy_shift, greedy_tenA (n % 100) (Nat.mod_lt n (by omega)),
        Nat.mod_mod_of_dvd n (by norm_num : (10 : Nat) ∣ 100)]
  have e3 : List.foldl greedyStep
      (n % 10, (thousA (n / 1000) ++ hundA (n % 1000 / 100)) ++ tenA (n % 100 / 10)) usegA
      = (0, ((thousA (n / 1000) ++ hundA (n % 1000 / 100)) ++ tenA (n % 100 / 10)) ++ unitA (n % 10)) := by
    rw [foldl_greedy_shift, greedy_unitA (n % 10) (Nat.mod_lt n (by omega))]
  rw [tabA_decomp, List.foldl_append, List.foldl_append, List.foldl_append, e0, e1, e2, e3,
      String.append_assoc, String.append_assoc]
  rfl

/-- Characterization of the Unicode-style encoder on its accepted range. -/
theorem to_roman_eqU (n : Nat) (h1 : 1 ≤ n) (h2 : n ≤ 3999) :
    to_roman n true = .ok (romanOfU n) := by
  have hdef : to_roman n true
      = if n < 1 ∨ n > 3999 then .error .outOfRange
        else .ok ((ARABIC_TO_UNICODE.foldl greedyStep (n, "")).2) := rfl
  rw [hdef, if_neg (by omega : ¬(n < 1 ∨ n > 3999))]
  have e0 : List.foldl greedyStep (n, "") [(1000, "Ⅿ")] = (n % 1000, thousU (n / 1000)) := by
    have h := greedy_thousU (n / 1000) (by omega) (n % 1000) (Nat.mod_lt n (by omega))
    rw [Nat.div_add_mod n 1000] at h
    exact h
  have e1 : List.foldl greedyStep (n % 1000, thousU (n / 1000)) hsegU
      = (n % 100, thousU (n / 1000) ++ hundU (n % 1000 / 100)) := by
    rw [foldl_greedy_shift, greedy_hundU (n % 1000) (Nat.mod_lt n (by omega)),
        Nat.mod_mod_of_dvd n (by norm_num : (100 : Nat) ∣ 1000)]
  have e2 : List.foldl greedyStep (n % 100, thousU (n / 1000) ++ hundU (n % 1000 / 100)) tsegU
      = (n % 10, (thousU (n / 1000) ++ hundU (n % 1000 / 100)) ++ tenU (n % 100 / 10)) := by
    rw [foldl_greedy_shift, greedy_tenU (n % 100) (Nat.mod_lt n (by omega)),
        Nat.mod_mod_of_dvd n (by norm_num : (10 : Nat) ∣ 100)]
  have e3 : List.foldl greedyStep
      (n % 10, (thousU (n / 1000) ++ hundU (n % 1000 / 100)) ++ tenU (n % 100 / 10)) usegU
      = (0, ((thousU (n / 1000) ++ hundU (n % 1000 / 100)) ++ tenU (n % 100 / 10)) ++ unitU (n % 10)) := by
    rw [foldl_greedy_shift, greedy_unitU (n % 10) (Nat.mod_lt n (by omega))]
  rw [tabU_decomp, List.foldl_append, List.foldl_append, List.foldl_append, e0, e1, e2, e3,
      String.append_assoc, String.append_assoc]
  rfl

/- Claim theorems -/

/-- C4: the strings XIL, VIL, IXC, XXC, LC, LL and DD are all rejected by
`to_arabic` with the invalid-sequence error, while MM, CC, XX and II decode
to 2000, 200, 20 and 2 respectively. -/
theorem C4_invalid_sequences :
    to_arabic "XIL" = .error .invalidSequence ∧
    to_arabic "VIL" = .error .invalidSequence ∧
    to_arabic "IXC" = .error .invalidSequence ∧
    to_arabic "XXC" = .error .invalidSequence ∧
    to_arabic "LC" = .error .invalidSequence ∧
    to_arabic "LL" = .error .invalidSequence ∧
    to_arabic "DD" = .error .invalidSequence ∧
    to_arabic "MM" = .ok 2000 ∧
    to_arabic "CC" = .ok 200 ∧
    to_arabic "XX" = .ok 20 ∧
    to_arabic "II" = .ok 2 := by
  decide

/-- C5: the watchmaker exception — the exact normalized strings IIII and
ⅠⅠⅠⅠ decode to 4, while XXXX and VIIII are rejected with the
invalid-sequence error. -/
theorem C5_watchmaker_exception :
    to_arabic "IIII" = .ok 4 ∧
    to_arabic "ⅠⅠⅠⅠ" = .ok 4 ∧
    to_arabic "XXXX" = .error .invalidSequence ∧
    to_arabic "VIIII" = .error .invalidSequence := by
  decide

/-- C6: `to_roman` fails (necessarily with the out-of-range error, the only
error it can produce) exactly when the input lies outside [1, 3999],
for both styles. -/
theorem C6_out_of_range (n : Nat) (u : Bool) :
    to_roman n u = .error .outOfRange ↔ (n < 1 ∨ n > 3999) := by
  unfold to_roman
  by_cases h : n < 1 ∨ n > 3999
  · rw [if_pos h]
    exact iff_of_true rfl h
  · rw [if_neg h]
    exact iff_of_false (fun hh => Except.noConfusion hh) h

/-- C7: the literal encoder vectors from the spec: 1999 and 99 in ASCII
style, and 1999 in Unicode style. -/
theorem C7_encoder_vectors :
    to_roman 1999 false = .ok "MCMXCIX" ∧
    to_roman 99 false = .ok "XCIX" ∧
    to_roman 1999 true = .ok "ⅯⅭⅯⅩⅭⅠⅩ" := by
  decide

/-- C8: `to_arabic` is case-insensitive — decoding a string and decoding its
uppercased form agree for every string, and the concrete vectors iv = 4 and
CvL = 145 hold. -/
theorem C8_case_insensitive :
    (∀ s : String, to_arabic s = to_arabic (rust_to_uppercase s)) ∧
    to_arabic "iv" = .ok 4 ∧ to_arabic "CvL" = .ok 145 := by
  refine ⟨fun s => ?_, by decide, by decide⟩
  show to_arabic_checked (rust_to_uppercase s)
      = to_arabic_checked (rust_to_uppercase (rust_to_uppercase s))
  rw [upper_upper]

/-- Uppercasing fixes the thousands-segment ASCII glyphs. -/
theorem upper_fix_thousA : ∀ d, d < 4 → (thousA d).data.map rustToUpper = (thousA d).data := by
  decide

/-- Uppercasing fixes the hundreds-segment ASCII glyphs. -/
theorem upper_fix_hundA : ∀ d, d < 10 → (hundA d).data.map rustToUpper = (hundA d).data := by
  decide

/-- Uppercasing fixes the tens-segment ASCII glyphs. -/
theorem upper_fix_tenA : ∀ d, d < 10 → (tenA d).data.map rustToUpper = (tenA d).data := by
  decide

/-- Uppercasing fixes the units-segment ASCII glyphs. -/
theorem upper_fix_unitA : ∀ d, d < 10 → (unitA d).data.map rustToUpper = (unitA d).data := by
  decide

/-- Uppercasing fixes the thousands-segment Unicode glyphs. -/
theorem upper_fix_thousU : ∀ d, d < 4 → (thousU d).data.map rustToUpper = (thousU d).data := by
  decide

/-- Uppercasing fixes the hundreds-segment Unicode glyphs. -/
theorem upper_fix_hundU : ∀ d, d < 10 → (hundU d).data.map rustToUpper = (hundU d).data := by
  decide

/-- Uppercasing fixes the tens-segment Unicode glyphs. -/
theorem upper_fix_tenU : ∀ d, d < 10 → (tenU d).data.map rustToUpper = (tenU d).data := by
  decide

/-- Uppercasing fixes the units-segment Unicode glyphs. -/
theorem upper_fix_unitU : ∀ d, d < 10 → (unitU d).data.map rustToUpper = (unitU d).data := by
  decide

/-- The ASCII encoder output is already uppercase-normalized. -/
theorem upper_romanOfA (n : Nat) (h2 : n ≤ 3999) :
    rust_to_uppercase (romanOfA n) = romanOfA n := by
  have h : (romanOfA n).data.map rustToUpper = (romanOfA n).data := by
    unfold romanOfA
    rw [String.data_append, String.data_append, String.data_append,
        List.map_append, List.map_append, List.map_append,
        upper_fix_thousA _ (by omega), upper_fix_hundA _ (by omega),
        upper_fix_tenA _ (by omega), upper_fix_unitA _ (by omega)]
  show (⟨(romanOfA n).data.map rustToUpper⟩ : String) = romanOfA n
  rw [h]

/-- The Unicode encoder output is already uppercase-normalized. -/
theorem upper_romanOfU (n : Nat) (h2 : n ≤ 3999) :
    rust_to_uppercase (romanOfU n) = romanOfU n := by
  have h : (romanOfU n).data.map rustToUpper = (romanOfU n).data := by
    unfold romanOfU
    rw [String.data_append, String.data_append, String.data_append,
        List.map_append, List.map_append, List.map_append,
        upper_fix_thousU _ (by omega), upper_fix_hundU _ (by omega),
        upper_fix_tenU _ (by omega), upper_fix_unitU _ (by omega)]
  show (⟨(romanOfU n).data.map rustToUpper⟩ : String) = romanOfU n
  rw [h]

/-- Magnitudes of the thousands-segment ASCII glyphs. -/
theorem lv_thousA : ∀ d, d < 4 → lookupVals (thousA d).data = some (thousM d) := by decide

/-- Magnitudes of the hundreds-segment ASCII glyphs. -/
theorem lv_hundA : ∀ d, d < 10 → lookupVals (hundA d).data = some (hundM d) := by decide

/-- Magnitudes of the tens-segment ASCII glyphs. -/
theorem lv_tenA : ∀ d, d < 10 → lookupVals (tenA d).data = some (tenM d) := by decide

/-- Magnitudes of the units-segment ASCII glyphs. -/
theorem lv_unitA : ∀ d, d < 10 → lookupVals (unitA d).data = some (unitM d) := by decide

/-- Magnitudes of the thousands-segment Unicode glyphs. -/
theorem lv_thousU : ∀ d, d < 4 → lookupVals (thousU d).data = some (thousM d) := by decide

/-- Magnitudes of the hundreds-segment Unicode glyphs. -/
theorem lv_hundU : ∀ d, d < 10 → lookupVals (hundU d).data = some (hundM d) := by decide

/-- Magnitudes of the tens-segment Unicode glyphs. -/
theorem lv_tenU : ∀ d, d < 10 → lookupVals (tenU d).data = some (tenM d) := by decide

/-- Magnitudes of the units-segment Unicode glyphs. -/
theorem lv_unitU : ∀ d, d < 10 → lookupVals (unitU d).data = some (unitM d) := by decide

/-- Character-set validation distributes over appended glyph lists when both
halves validate. -/
theorem lookupVals_append {l1 l2 : List Char} {a b : List Nat}
    (h1 : lookupVals l1 = some a) (h2 : lookupVals l2 = some b) :
    lookupVals (l1 ++ l2) = some (a ++ b) := by
  unfold lookupVals at h1 h2 ⊢
  rw [List.mapM_append, h1, h2]
  rfl

/-- Magnitudes of the full ASCII encoding of n. -/
theorem lookupVals_romanOfA (n : Nat) (h2 : n ≤ 3999) :
    lookupVals (romanOfA n).data = some (magsOf n) := by
  unfold romanOfA magsOf
  rw [String.data_append, String.data_append, String.data_append]
  exact lookupVals_append (lv_thousA _ (by omega))
    (lookupVals_append (lv_hundA _ (by omega))
      (lookupVals_append (lv_tenA _ (by omega)) (lv_unitA _ (by omega))))

/-- Magnitudes of the full Unicode encoding of n. -/
theorem lookupVals_romanOfU (n : Nat) (h2 : n ≤ 3999) :
    lookupVals (romanOfU n).data = some (magsOf n) := by
  unfold romanOfU magsOf
  rw [String.data_append, String.data_append, String.data_append]
  exact lookupVals_append (lv_thousU _ (by omega))
    (lookupVals_append (lv_hundU _ (by omega))
      (lookupVals_append (lv_tenU _ (by omega)) (lv_unitU _ (by omega))))

set_option maxRecDepth 100000 in
/-- Exhaustive check of the scan results and the special-string
disequalities on 1..999. -/
theorem scan_ok_q0 : ∀ r, r < 1000 → 1 ≤ r → SCOK r := by decide

set_option maxRecDepth 100000 in
/-- Exhaustive check of the scan results and the special-string
disequalities on 1000..1999. -/
theorem scan_ok_q1 : ∀ r, r < 1000 → SCOK (1000 + r) := by decide

set_option maxRecDepth 100000 in
/-- Exhaustive check of the scan results and the special-string
disequalities on 2000..2999. -/
theorem scan_ok_q2 : ∀ r, r < 1000 → SCOK (2000 + r) := by decide

set_option maxRecDepth 100000 in
/-- Exhaustive check of the scan results and the special-string
disequalities on 3000..3999. -/
theorem scan_ok_q3 : ∀ r, r < 1000 → SCOK (3000 + r) := by decide

/-- The scan results at an arbitrary in-range value. -/
theorem scan_ok_all (n : Nat) (h1 : 1 ≤ n) (h2 : n ≤ 3999) : SCOK n := by
  by_cases c0 : n < 1000
  · exact scan_ok_q0 n c0 h1
  · by_cases c1 : n < 2000
    · have h := scan_ok_q1 (n - 1000) (by omega)
      have e : 1000 + (n - 1000) = n := by omega
      rwa [e] at h
    · by_cases c2 : n < 3000
      · have h := scan_ok_q2 (n - 2000) (by omega)
        have e : 2000 + (n - 2000) = n := by omega
        rwa [e] at h
      · have h := scan_ok_q3 (n - 3000) (by omega)
        have e : 3000 + (n - 3000) = n := by omega
        rwa [e] at h

/-- C1: decoding round-trips the encoder on its whole range — for every n in
[1, 3999], `to_arabic` applied to the output of `to_roman n` returns n, in
both the ASCII and the Unicode style. -/
theorem C1_round_trip (n : Nat) (h1 : 1 ≤ n) (h2 : n ≤ 3999) :
    (to_roman n false).bind to_arabic = .ok n ∧
    (to_roman n true).bind to_arabic = .ok n := by
  obtain ⟨hscan, hneA, hwA, hneU, hwU⟩ := scan_ok_all n h1 h2
  have hdecA : to_arabic (romanOfA n) = .ok n := by
    show to_arabic_checked (rust_to_uppercase (romanOfA n)) = .ok n
    rw [upper_romanOfA n h2]
    unfold to_arabic_checked
    rw [if_neg hneA, if_neg hwA, lookupVals_romanOfA n h2]
    exact hscan
  have hdecU : to_arabic (romanOfU n) = .ok n := by
    show to_arabic_checked (rust_to_uppercase (romanOfU n)) = .ok n
    rw [upper_romanOfU n h2]
    unfold to_arabic_checked
    rw [if_neg hneU, if_neg hwU, lookupVals_romanOfU n h2]
    exact hscan
  rw [to_roman_eqA n h1 h2, to_roman_eqU n h1 h2]
  exact ⟨hdecA, hdecU⟩

/-- Witness for C1 at the concrete value 1999. -/
theorem C1_round_trip_witness :
    (to_roman 1999 false).bind to_arabic = .ok 1999 ∧
    (to_roman 1999 true).bind to_arabic = .ok 1999 :=
  C1_round_trip 1999 (by decide) (by decide)

/-- C9: the unsigned subtraction in the decode scan never wraps — for every
input string that passes character validation, every subtractive branch the
scan executes satisfies `current ≤ value`, as witnessed by the ghost
instrumentation returning true on the magnitude list of the string. -/
theorem C9_subtraction_safe (s : String) (vals : List Nat)
    (_h : ((rust_to_uppercase s).data.mapM fun c => ROMAN_TO_ARABIC.lookup c : Option (List Nat)) = some vals) :
    scanLoopSafe vals.reverse 0 0 0 0 = true :=
  scanLoopSafe_true vals.reverse 0 0 0 0 (Or.inr (Nat.le_refl 0))

/-- Witness for C9 at the concrete input XCIX, whose magnitude list is
[10, 100, 1, 10]. -/
theorem C9_subtraction_safe_witness :
    scanLoopSafe ([10, 100, 1, 10] : List Nat).reverse 0 0 0 0 = true :=
  C9_subtraction_safe "XCIX" [10, 100, 1, 10] (by decide)

/-- C10: the Unicode-style encoder output can contain the ASCII letter V
(code point 86): the Unicode table maps 5 to the ASCII string V and 4 to the
mixed string ⅠV, and the encoder reproduces them. -/
theorem C10_ascii_v_in_unicode_style :
    to_roman 5 true = .ok "V" ∧
    to_roman 4 true = .ok "ⅠV" ∧
    ARABIC_TO_UNICODE.lookup 5 = some "V" ∧
    ARABIC_TO_UNICODE.lookup 4 = some "ⅠV" ∧
    'V'.toNat = 86 ∧ 'V' ∈ "ⅠV".data := by
  decide

/-- C2: refuted as stated — the power-to-glyph table stops at 10 ^ 16, so
`to_japanese` is not total: at input 10 ^ 17 the power lookup misses
(a panic in Rust, `none` in the model), although 10 ^ 16 still succeeds. -/
theorem C2_totality_gap :
    to_japanese (10 ^ 16) = some "京" ∧ to_japanese (10 ^ 17) = none := by
  decide

/-- C3: the first three literal Japanese vectors hold, but the u64::MAX
vector fails — at 20 decimal digits the scan needs the powers 10 ^ 17,
10 ^ 18 and 10 ^ 19, which are missing from the table, so the code panics
(`none` in the model) instead of returning the claimed string. -/
theorem C3_japanese_vectors :
    to_japanese 0 = some "零" ∧
    to_japanese 1994 = some "千九百九十四" ∧
    to_japanese 100000 = some "十万" ∧
    to_japanese 18446744073709551615 = none := by
  decide

end Numerals
